import Mathlib

/-!
Shallow embedding of the raycaster_rs renderer (src/main.rs) over real
arithmetic.  Floating-point `f64` values are modelled as real numbers; the
`f64::INFINITY` upper bound passed by `ray_color` is modelled by `FBound.infinity`.
Mutation of the output `HitRecord` parameter is modelled by returning the pair
`(returned bool, record after the call)`.
-/

set_option linter.unusedVariables false

namespace Raycaster

open scoped Classical

/-- The 3-component double-precision vector (`glam::DVec3`), modelled over ℝ. -/
structure DVec3 where
  x : ℝ
  y : ℝ
  z : ℝ

namespace DVec3

noncomputable instance : Add DVec3 := ⟨fun v w => ⟨v.x + w.x, v.y + w.y, v.z + w.z⟩⟩
noncomputable instance : Sub DVec3 := ⟨fun v w => ⟨v.x - w.x, v.y - w.y, v.z - w.z⟩⟩
noncomputable instance : Neg DVec3 := ⟨fun v => ⟨-v.x, -v.y, -v.z⟩⟩
noncomputable instance : SMul ℝ DVec3 := ⟨fun r v => ⟨r * v.x, r * v.y, r * v.z⟩⟩

/-- Scalar division `v / r` (componentwise), as used by `glam` for `DVec3 / f64`. -/
noncomputable def divScalar (v : DVec3) (r : ℝ) : DVec3 := ⟨v.x / r, v.y / r, v.z / r⟩

/-- `DVec3::dot`. -/
noncomputable def dot (v w : DVec3) : ℝ := v.x * w.x + v.y * w.y + v.z * w.z

/-- `DVec3::length_squared`. -/
noncomputable def length_squared (v : DVec3) : ℝ := v.dot v

/-- `DVec3::length`. -/
noncomputable def length (v : DVec3) : ℝ := Real.sqrt v.length_squared

/-- `DVec3::normalize`: `v / v.length()`. -/
noncomputable def normalize (v : DVec3) : DVec3 := v.divScalar v.length

end DVec3

/-- `struct Ray { origin, dir }`. -/
structure Ray where
  origin : DVec3
  dir : DVec3

/-- `Ray::at`: `origin + t * dir`. -/
noncomputable def Ray.at (ray : Ray) (t : ℝ) : DVec3 := ray.origin + t • ray.dir

/-- `struct HitRecord { p, normal, t, front_face }`. -/
structure HitRecord where
  p : DVec3
  normal : DVec3
  t : ℝ
  front_face : Bool

/-- `HitRecord::set_face_normal`: sets `front_face = dot(ray.dir, outward_normal) < 0`
and `normal = outward_normal` if front facing, else its negation. -/
noncomputable def HitRecord.set_face_normal (rc : HitRecord) (ray : Ray)
    (outward_normal : DVec3) : HitRecord :=
  { rc with
    front_face := decide (ray.dir.dot outward_normal < 0)
    normal := if ray.dir.dot outward_normal < 0 then outward_normal else -outward_normal }

/-- The `t_max`/`closest_so_far` values flowing through the `hit` protocol:
either a finite `f64` or `f64::INFINITY` (the bound `ray_color` passes). -/
inductive FBound where
  | finite (v : ℝ)
  | infinity

/-- The comparison `bound < x` against a finite real; for `f64`,
`INFINITY < x` is always false. -/
noncomputable def FBound.ltReal : FBound → ℝ → Prop
  | .finite v, x => v < x
  | .infinity, _ => False

/-- `struct Sphere { center, radius }`. -/
structure Sphere where
  center : DVec3
  radius : ℝ

namespace Sphere

/-- `oc = ray.origin - self.center` (local of `Sphere::hit`). -/
noncomputable def oc (s : Sphere) (ray : Ray) : DVec3 := ray.origin - s.center

/-- `a = ray.dir.length_squared()` (local of `Sphere::hit`). -/
noncomputable def a (s : Sphere) (ray : Ray) : ℝ := ray.dir.length_squared

/-- `half_b = oc.dot(ray.dir)` (local of `Sphere::hit`). -/
noncomputable def half_b (s : Sphere) (ray : Ray) : ℝ := (s.oc ray).dot ray.dir

/-- `c = oc.length_squared() - radius * radius` (local of `Sphere::hit`). -/
noncomputable def c (s : Sphere) (ray : Ray) : ℝ := (s.oc ray).length_squared - s.radius * s.radius

/-- `discriminant = half_b * half_b - a * c` (local of `Sphere::hit`). -/
noncomputable def discriminant (s : Sphere) (ray : Ray) : ℝ :=
  s.half_b ray * s.half_b ray - s.a ray * s.c ray

/-- `sqrt = discriminant.sqrt()` (local of `Sphere::hit`). -/
noncomputable def sqrtd (s : Sphere) (ray : Ray) : ℝ := Real.sqrt (s.discriminant ray)

/-- The first candidate `root = (-half_b - sqrt) / a` (line 145). -/
noncomputable def root1 (s : Sphere) (ray : Ray) : ℝ :=
  (-s.half_b ray - s.sqrtd ray) / s.a ray

/-- The shadowing fallback `root = (-half_b + sqrt) / a` (line 147). -/
noncomputable def root2 (s : Sphere) (ray : Ray) : ℝ :=
  (-s.half_b ray + s.sqrtd ray) / s.a ray

/-- Lines 152–157 of `Sphere::hit`: `rec.t = root; rec.p = ray.at(rec.t);`
`outward_normal = (rec.p - center) / radius; rec.set_face_normal(ray, outward_normal)`. -/
noncomputable def record (s : Sphere) (ray : Ray) (root : ℝ) (rc : HitRecord) : HitRecord :=
  let p := ray.at root
  let outward_normal := (p - s.center).divScalar s.radius
  HitRecord.set_face_normal { rc with t := root, p := p } ray outward_normal

/-- `Sphere::hit`.  NOTE (faithful to the source): the fallback
`let root = (-half_b + sqrt) / a;` on line 147 of src/main.rs is a new binding
that shadows the outer `root` only inside the `if` block; the assignment
`rec.t = root` on line 152 therefore always uses the OUTER (nearer) root, even
when control reached it because only the farther root was in range. -/
noncomputable def hit (s : Sphere) (ray : Ray) (t_min : ℝ) (t_max : FBound)
    (rc : HitRecord) : Bool × HitRecord :=
  if s.discriminant ray < 0 then (false, rc)
  else
    let root := (-s.half_b ray - s.sqrtd ray) / s.a ray
    if root < t_min ∨ t_max.ltReal root then
      let root2 := (-s.half_b ray + s.sqrtd ray) / s.a ray
      if root2 < t_min ∨ t_max.ltReal root2 then (false, rc)
      else (true, s.record ray root rc)
    else (true, s.record ray root rc)

end Sphere

/-- `struct HittableList`: the program only ever stores `Sphere`s in it. -/
structure HittableList where
  objects : List Sphere

/-- The zero-initialized `HitRecord` literal used by `HittableList::hit` and
`ray_color`. -/
noncomputable def emptyRecord : HitRecord := ⟨⟨0, 0, 0⟩, ⟨0, 0, 0⟩, 0, false⟩

/-- The loop of `HittableList::hit`: iterates the objects in order, threading
`closest_so_far`, `hit_anything`, the scratch record `temp_rec` and the output
record `rec` (copied whole from `temp_rec` on each successful sub-hit). -/
noncomputable def hitLoop (ray : Ray) (t_min : ℝ) :
    List Sphere → FBound → Bool → HitRecord → HitRecord → Bool × HitRecord
  | [], _, hit_anything, _, out => (hit_anything, out)
  | object :: rest, closest_so_far, hit_anything, temp_rec, out =>
    let res := object.hit ray t_min closest_so_far temp_rec
    if res.1 then hitLoop ray t_min rest (.finite res.2.t) true res.2 res.2
    else hitLoop ray t_min rest closest_so_far hit_anything res.2 out

/-- `HittableList::hit`. -/
noncomputable def HittableList.hit (w : HittableList) (ray : Ray) (t_min : ℝ)
    (t_max : FBound) (rc : HitRecord) : Bool × HitRecord :=
  hitLoop ray t_min w.objects t_max false emptyRecord rc

/-- `write_color`: the three integers printed for a pixel,
`floor(255.999 * channel)` for each channel. -/
noncomputable def write_color (pixel_color : DVec3) : ℤ × ℤ × ℤ :=
  (⌊255.999 * pixel_color.x⌋, ⌊255.999 * pixel_color.y⌋, ⌊255.999 * pixel_color.z⌋)

/-- `ray_color`: queries the world over `[0.0, +∞)` with a fresh zero record;
on a hit returns `0.5 * (normal + (1,1,1))`, otherwise the background gradient. -/
noncomputable def ray_color (ray : Ray) (world : HittableList) : DVec3 :=
  let res := world.hit ray 0 .infinity emptyRecord
  if res.1 then
    (0.5 : ℝ) • ⟨res.2.normal.x + 1, res.2.normal.y + 1, res.2.normal.z + 1⟩
  else
    let unit_direction := ray.dir.normalize
    let av := 0.5 * (unit_direction.y + 1)
    (1 - av) • (⟨1, 1, 1⟩ : DVec3) + av • (⟨0.5, 0.7, 1⟩ : DVec3)

/-! Constants and derived values of `main`. -/

/-- `aspect_ratio = 16.0 / 9.0`. -/
noncomputable def aspect_ratio : ℝ := 16.0 / 9.0

/-- `image_width = 400`. -/
def image_width : ℤ := 400

/-- Rust's `as i32` cast on a finite `f64`: truncation toward zero. -/
noncomputable def as_i32 (v : ℝ) : ℤ := if 0 ≤ v then ⌊v⌋ else ⌈v⌉

/-- `image_height = max((image_width as f64 / aspect_ratio) as i32, 1)`. -/
noncomputable def image_height : ℤ := max (as_i32 ((image_width : ℝ) / aspect_ratio)) 1

/-- The two-sphere `world` built in `main`. -/
noncomputable def world : HittableList :=
  ⟨[⟨⟨0, 0, -1⟩, 0.5⟩, ⟨⟨0, -100.5, -1⟩, 100.0⟩]⟩

/-- `focal_length = 1.0`. -/
noncomputable def focal_length : ℝ := 1.0

/-- `viewport_height = 2.0`. -/
noncomputable def viewport_height : ℝ := 2.0

/-- `viewport_width = viewport_height * (image_width as f64 / image_height as f64)`. -/
noncomputable def viewport_width : ℝ :=
  viewport_height * ((image_width : ℝ) / (image_height : ℝ))

/-- `camera_center = (0, 0, 0)`. -/
noncomputable def camera_center : DVec3 := ⟨0, 0, 0⟩

/-- `viewport_u = (viewport_width, 0, 0)`. -/
noncomputable def viewport_u : DVec3 := ⟨viewport_width, 0, 0⟩

/-- `viewport_v = (0, -viewport_height, 0)`. -/
noncomputable def viewport_v : DVec3 := ⟨0, -viewport_height, 0⟩

/-- `pixel_delta_u = viewport_u / image_width`. -/
noncomputable def pixel_delta_u : DVec3 := viewport_u.divScalar (image_width : ℝ)

/-- `pixel_delta_v = viewport_v / image_height`. -/
noncomputable def pixel_delta_v : DVec3 := viewport_v.divScalar (image_height : ℝ)

/-- `viewport_upper_left = camera_center - (0,0,focal_length) - viewport_u/2 - viewport_v/2`. -/
noncomputable def viewport_upper_left : DVec3 :=
  camera_center - ⟨0, 0, focal_length⟩ - viewport_u.divScalar 2 - viewport_v.divScalar 2

/-- `pixel00_loc = viewport_upper_left + 0.5 * (pixel_delta_u + pixel_delta_v)`. -/
noncomputable def pixel00_loc : DVec3 :=
  viewport_upper_left + (0.5 : ℝ) • (pixel_delta_u + pixel_delta_v)

/-- One pixel line of standard output: the body of the double loop of `main`
for column `i`, row `j`, formatting the three `write_color` integers. -/
noncomputable def pixelLine (i j : ℕ) : String :=
  let pixel_center :=
    pixel00_loc + (i : ℝ) • pixel_delta_u + (j : ℝ) • pixel_delta_v
  let ray : Ray := ⟨camera_center, pixel_center - camera_center⟩
  let rgb := write_color (ray_color ray world)
  toString rgb.1 ++ " " ++ toString rgb.2.1 ++ " " ++ toString rgb.2.2

/-- `println!("P3\n{} {}\n255", image_width, image_height)`: the three header
lines of standard output. -/
noncomputable def header : List String :=
  ["P3", toString image_width ++ " " ++ toString image_height, "255"]

/-- All lines `main` writes to standard output: the header followed by one
pixel line per pixel, row-major. -/
noncomputable def mainStdout : List String :=
  header ++ (List.range image_height.toNat).flatMap fun j =>
    (List.range image_width.toNat).map fun i => pixelLine i j

/-! Concrete fixtures used by the evaluations below. -/

/-- A unit sphere centred at the origin. -/
noncomputable def unitSphereO : Sphere := ⟨⟨0, 0, 0⟩, 1⟩

/-- A unit sphere centred at `(1.5, 0, 0)`. -/
noncomputable def sphereB : Sphere := ⟨⟨1.5, 0, 0⟩, 1⟩

/-- A unit sphere centred at `(0, 0, -2)`, in front of the camera. -/
noncomputable def sphereFront : Sphere := ⟨⟨0, 0, -2⟩, 1⟩

/-- A ray from the origin along `+x`. -/
noncomputable def rayX : Ray := ⟨⟨0, 0, 0⟩, ⟨1, 0, 0⟩⟩

/-- A ray from the origin along `-z`. -/
noncomputable def rayZ : Ray := ⟨⟨0, 0, 0⟩, ⟨0, 0, -1⟩⟩

/-- A ray from the origin along `+y`. -/
noncomputable def rayY : Ray := ⟨⟨0, 0, 0⟩, ⟨0, 1, 0⟩⟩

/-- An arbitrary pre-populated hit record, to observe the frame condition. -/
noncomputable def someRecord : HitRecord := ⟨⟨1, 2, 3⟩, ⟨4, 5, 6⟩, 7, true⟩

/-! ### Theorems: basic component lemmas -/

@[ext] theorem DVec3.ext' {v w : DVec3} (hx : v.x = w.x) (hy : v.y = w.y)
    (hz : v.z = w.z) : v = w := by
  cases v; cases w; simp_all

theorem DVec3.eq_iff (v w : DVec3) : v = w ↔ v.x = w.x ∧ v.y = w.y ∧ v.z = w.z := by
  constructor
  · intro h; rw [h]; exact ⟨rfl, rfl, rfl⟩
  · intro ⟨hx, hy, hz⟩; exact DVec3.ext' hx hy hz

@[simp] theorem DVec3.add_x (v w : DVec3) : (v + w).x = v.x + w.x := rfl
@[simp] theorem DVec3.add_y (v w : DVec3) : (v + w).y = v.y + w.y := rfl
@[simp] theorem DVec3.add_z (v w : DVec3) : (v + w).z = v.z + w.z := rfl
@[simp] theorem DVec3.sub_x (v w : DVec3) : (v - w).x = v.x - w.x := rfl
@[simp] theorem DVec3.sub_y (v w : DVec3) : (v - w).y = v.y - w.y := rfl
@[simp] theorem DVec3.sub_z (v w : DVec3) : (v - w).z = v.z - w.z := rfl
@[simp] theorem DVec3.neg_x (v : DVec3) : (-v).x = -v.x := rfl
@[simp] theorem DVec3.neg_y (v : DVec3) : (-v).y = -v.y := rfl
@[simp] theorem DVec3.neg_z (v : DVec3) : (-v).z = -v.z := rfl
@[simp] theorem DVec3.smul_x (r : ℝ) (v : DVec3) : (r • v).x = r * v.x := rfl
@[simp] theorem DVec3.smul_y (r : ℝ) (v : DVec3) : (r • v).y = r * v.y := rfl
@[simp] theorem DVec3.smul_z (r : ℝ) (v : DVec3) : (r • v).z = r * v.z := rfl
@[simp] theorem DVec3.divScalar_x (v : DVec3) (r : ℝ) : (v.divScalar r).x = v.x / r := rfl
@[simp] theorem DVec3.divScalar_y (v : DVec3) (r : ℝ) : (v.divScalar r).y = v.y / r := rfl
@[simp] theorem DVec3.divScalar_z (v : DVec3) (r : ℝ) : (v.divScalar r).z = v.z / r := rfl

theorem DVec3.dot_neg_right (v w : DVec3) : v.dot (-w) = -(v.dot w) := by
  simp only [DVec3.dot, DVec3.neg_x, DVec3.neg_y, DVec3.neg_z]; ring

theorem DVec3.length_squared_nonneg (v : DVec3) : 0 ≤ v.length_squared := by
  simp only [DVec3.length_squared, DVec3.dot]
  nlinarith [sq_nonneg v.x, sq_nonneg v.y, sq_nonneg v.z]

theorem DVec3.length_squared_eq_zero_iff (v : DVec3) :
    v.length_squared = 0 ↔ v = ⟨0, 0, 0⟩ := by
  simp only [DVec3.length_squared, DVec3.dot]
  constructor
  · intro h
    have hx : v.x = 0 := by nlinarith [sq_nonneg v.x, sq_nonneg v.y, sq_nonneg v.z]
    have hy : v.y = 0 := by nlinarith [sq_nonneg v.x, sq_nonneg v.y, sq_nonneg v.z]
    have hz : v.z = 0 := by nlinarith [sq_nonneg v.x, sq_nonneg v.y, sq_nonneg v.z]
    exact DVec3.ext' hx hy hz
  · intro h; rw [h]; norm_num

theorem DVec3.length_sq (v : DVec3) : v.length ^ 2 = v.length_squared := by
  rw [DVec3.length, Real.sq_sqrt (DVec3.length_squared_nonneg v)]

theorem DVec3.length_neg (v : DVec3) : (-v).length = v.length := by
  have : (-v).length_squared = v.length_squared := by
    simp only [DVec3.length_squared, DVec3.dot, DVec3.neg_x, DVec3.neg_y, DVec3.neg_z]; ring
  rw [DVec3.length, DVec3.length, this]

/-- Evaluating a square root from its square. -/
theorem sqrt_of_sq {x y : ℝ} (hy : 0 ≤ y) (h : y ^ 2 = x) : Real.sqrt x = y := by
  rw [← h, Real.sqrt_sq hy]

/-! ### Theorems: structure of `set_face_normal`, `Sphere.record`, `Sphere.hit` -/

theorem HitRecord.set_face_normal_front_face (rc : HitRecord) (ray : Ray) (n : DVec3) :
    (rc.set_face_normal ray n).front_face = decide (ray.dir.dot n < 0) := rfl

theorem HitRecord.set_face_normal_normal (rc : HitRecord) (ray : Ray) (n : DVec3) :
    (rc.set_face_normal ray n).normal = if ray.dir.dot n < 0 then n else -n := rfl

theorem HitRecord.set_face_normal_p (rc : HitRecord) (ray : Ray) (n : DVec3) :
    (rc.set_face_normal ray n).p = rc.p := rfl

theorem HitRecord.set_face_normal_t (rc : HitRecord) (ray : Ray) (n : DVec3) :
    (rc.set_face_normal ray n).t = rc.t := rfl

theorem HitRecord.set_face_normal_dot_nonpos (rc : HitRecord) (ray : Ray) (n : DVec3) :
    ray.dir.dot (rc.set_face_normal ray n).normal ≤ 0 := by
  rw [HitRecord.set_face_normal_normal]
  split_ifs with h
  · linarith
  · rw [DVec3.dot_neg_right]; push_neg at h; linarith

theorem Sphere.record_t (s : Sphere) (ray : Ray) (root : ℝ) (rc : HitRecord) :
    (s.record ray root rc).t = root := rfl

theorem Sphere.record_p (s : Sphere) (ray : Ray) (root : ℝ) (rc : HitRecord) :
    (s.record ray root rc).p = ray.at root := rfl

theorem Sphere.record_front_face (s : Sphere) (ray : Ray) (root : ℝ) (rc : HitRecord) :
    (s.record ray root rc).front_face
      = decide (ray.dir.dot ((ray.at root - s.center).divScalar s.radius) < 0) := rfl

theorem Sphere.record_normal (s : Sphere) (ray : Ray) (root : ℝ) (rc : HitRecord) :
    (s.record ray root rc).normal
      = if ray.dir.dot ((ray.at root - s.center).divScalar s.radius) < 0
        then (ray.at root - s.center).divScalar s.radius
        else -((ray.at root - s.center).divScalar s.radius) := rfl

/-- `Sphere.hit` written with the named roots; on every success path the
recorded root is `root1` (the shadowed outer binding). -/
theorem Sphere.hit_eq (s : Sphere) (ray : Ray) (t_min : ℝ) (t_max : FBound)
    (rc : HitRecord) :
    s.hit ray t_min t_max rc =
      if s.discriminant ray < 0 then (false, rc)
      else if s.root1 ray < t_min ∨ t_max.ltReal (s.root1 ray) then
        if s.root2 ray < t_min ∨ t_max.ltReal (s.root2 ray) then (false, rc)
        else (true, s.record ray (s.root1 ray) rc)
      else (true, s.record ray (s.root1 ray) rc) := rfl

theorem Sphere.hit_false_frame (s : Sphere) (ray : Ray) (t_min : ℝ) (t_max : FBound)
    (rc : HitRecord) (h : (s.hit ray t_min t_max rc).1 = false) :
    (s.hit ray t_min t_max rc).2 = rc := by
  rw [Sphere.hit_eq] at h ⊢
  split_ifs at h ⊢ <;> simp_all

theorem Sphere.hit_true_snd (s : Sphere) (ray : Ray) (t_min : ℝ) (t_max : FBound)
    (rc : HitRecord) (h : (s.hit ray t_min t_max rc).1 = true) :
    (s.hit ray t_min t_max rc).2 = s.record ray (s.root1 ray) rc := by
  rw [Sphere.hit_eq] at h ⊢
  split_ifs at h ⊢ <;> simp_all

theorem Sphere.hit_true_disc (s : Sphere) (ray : Ray) (t_min : ℝ) (t_max : FBound)
    (rc : HitRecord) (h : (s.hit ray t_min t_max rc).1 = true) :
    0 ≤ s.discriminant ray := by
  rw [Sphere.hit_eq] at h
  split_ifs at h with h1 <;> first | linarith | simp_all

/-! ### Theorems: sphere geometry -/

theorem Sphere.length_squared_at (s : Sphere) (ray : Ray) (t : ℝ) :
    (ray.at t - s.center).length_squared
      = s.a ray * t ^ 2 + 2 * s.half_b ray * t + (s.c ray + s.radius * s.radius) := by
  simp only [Ray.at, Sphere.a, Sphere.half_b, Sphere.c, Sphere.oc, DVec3.length_squared,
    DVec3.dot, DVec3.add_x, DVec3.add_y, DVec3.add_z, DVec3.sub_x, DVec3.sub_y, DVec3.sub_z,
    DVec3.smul_x, DVec3.smul_y, DVec3.smul_z]
  ring

theorem Sphere.root1_is_root (s : Sphere) (ray : Ray) (ha : s.a ray ≠ 0)
    (hd : 0 ≤ s.discriminant ray) :
    s.a ray * s.root1 ray ^ 2 + 2 * s.half_b ray * s.root1 ray + s.c ray = 0 := by
  have hs : s.sqrtd ray ^ 2 = s.discriminant ray := Real.sq_sqrt hd
  rw [Sphere.discriminant] at hs
  rw [Sphere.root1]
  field_simp
  nlinarith [hs]

theorem Sphere.root2_is_root (s : Sphere) (ray : Ray) (ha : s.a ray ≠ 0)
    (hd : 0 ≤ s.discriminant ray) :
    s.a ray * s.root2 ray ^ 2 + 2 * s.half_b ray * s.root2 ray + s.c ray = 0 := by
  have hs : s.sqrtd ray ^ 2 = s.discriminant ray := Real.sq_sqrt hd
  rw [Sphere.discriminant] at hs
  rw [Sphere.root2]
  field_simp
  nlinarith [hs]

theorem DVec3.length_squared_divScalar (v : DVec3) (r : ℝ) :
    (v.divScalar r).length_squared = v.length_squared / r ^ 2 := by
  simp only [DVec3.length_squared, DVec3.dot, DVec3.divScalar_x, DVec3.divScalar_y,
    DVec3.divScalar_z]
  ring

/-- On any successful `Sphere.hit` with non-degenerate direction, the recorded
point lies on the sphere: `|p - center|² = radius²`. -/
theorem Sphere.hit_true_on_sphere (s : Sphere) (ray : Ray) (t_min : ℝ) (t_max : FBound)
    (rc : HitRecord) (ha : s.a ray ≠ 0) (h : (s.hit ray t_min t_max rc).1 = true) :
    ((s.hit ray t_min t_max rc).2.p - s.center).length_squared = s.radius * s.radius := by
  rw [Sphere.hit_true_snd s ray t_min t_max rc h, Sphere.record_p, Sphere.length_squared_at]
  have hd := Sphere.hit_true_disc s ray t_min t_max rc h
  have hroot := Sphere.root1_is_root s ray ha hd
  linarith

/-- On any successful `Sphere.hit` with positive radius and non-degenerate
direction, the recorded normal has unit length. -/
theorem Sphere.hit_true_normal_length (s : Sphere) (ray : Ray) (t_min : ℝ)
    (t_max : FBound) (rc : HitRecord) (hr : 0 < s.radius) (ha : s.a ray ≠ 0)
    (h : (s.hit ray t_min t_max rc).1 = true) :
    (s.hit ray t_min t_max rc).2.normal.length = 1 := by
  have hr' : s.radius ≠ 0 := ne_of_gt hr
  have hon := Sphere.hit_true_on_sphere s ray t_min t_max rc ha h
  rw [Sphere.hit_true_snd s ray t_min t_max rc h] at hon ⊢
  rw [Sphere.record_p] at hon
  have hls : ((ray.at (s.root1 ray) - s.center).divScalar s.radius).length_squared = 1 := by
    rw [DVec3.length_squared_divScalar, hon, pow_two, div_self (mul_ne_zero hr' hr')]
  rw [Sphere.record_normal]
  split_ifs
  · rw [DVec3.length, hls, Real.sqrt_one]
  · rw [DVec3.length_neg, DVec3.length, hls, Real.sqrt_one]

/-- C5: for every sphere with positive radius and every ray with non-degenerate
direction, whenever `Sphere.hit` returns true the recorded hit point `p`
satisfies `|p - center| = radius` (exactly, in the real-arithmetic model) and
the recorded normal has unit length. -/
theorem sphere_hit_point_on_sphere (s : Sphere) (ray : Ray) (t_min : ℝ)
    (t_max : FBound) (rc : HitRecord) (hr : 0 < s.radius)
    (hdir : ray.dir ≠ ⟨0, 0, 0⟩) (h : (s.hit ray t_min t_max rc).1 = true) :
    ((s.hit ray t_min t_max rc).2.p - s.center).length = s.radius
    ∧ (s.hit ray t_min t_max rc).2.normal.length = 1 := by
  have ha : s.a ray ≠ 0 := by
    rw [Sphere.a]
    intro h0
    exact hdir ((DVec3.length_squared_eq_zero_iff _).mp h0)
  refine ⟨?_, Sphere.hit_true_normal_length s ray t_min t_max rc hr ha h⟩
  have hon := Sphere.hit_true_on_sphere s ray t_min t_max rc ha h
  rw [DVec3.length, hon]
  exact sqrt_of_sq (le_of_lt hr) (by ring)

/-! ### Concrete evaluations of `Sphere.hit` -/

/-- `Sphere.hit` with all numeric atoms supplied, ready for concrete inputs. -/
theorem Sphere.hit_eval (s : Sphere) (ray : Ray) (t_min : ℝ) (t_max : FBound)
    (rc : HitRecord) (d sd aa hb : ℝ)
    (hd : s.discriminant ray = d) (hsd : Real.sqrt d = sd)
    (ha : s.a ray = aa) (hhb : s.half_b ray = hb) :
    s.hit ray t_min t_max rc =
      if d < 0 then (false, rc)
      else if (-hb - sd) / aa < t_min ∨ t_max.ltReal ((-hb - sd) / aa) then
        if (-hb + sd) / aa < t_min ∨ t_max.ltReal ((-hb + sd) / aa) then
          (false, rc)
        else (true, s.record ray ((-hb - sd) / aa) rc)
      else (true, s.record ray ((-hb - sd) / aa) rc) := by
  rw [Sphere.hit_eq, Sphere.root1, Sphere.root2, Sphere.sqrtd, hd, hsd, ha, hhb]

/-- Evaluation: `sphereFront` hit by `rayZ` over `[0, 10]` succeeds with the
in-range nearer root `t = 1`, regardless of the prior record. -/
theorem sphereFront_hit_eval (rc : HitRecord) :
    sphereFront.hit rayZ 0 (.finite 10) rc
      = (true, ⟨⟨0, 0, -1⟩, ⟨0, 0, 1⟩, 1, true⟩) := by
  rw [Sphere.hit_eval sphereFront rayZ 0 (.finite 10) rc 1 1 1 (-2)
    (by norm_num [Sphere.discriminant, Sphere.half_b, Sphere.c, Sphere.a, Sphere.oc,
      DVec3.dot, DVec3.length_squared, sphereFront, rayZ])
    Real.sqrt_one
    (by norm_num [Sphere.a, DVec3.length_squared, DVec3.dot, rayZ])
    (by norm_num [Sphere.half_b, Sphere.oc, DVec3.dot, sphereFront, rayZ])]
  norm_num [FBound.ltReal]
  simp only [Sphere.record, HitRecord.set_face_normal, Ray.at]
  norm_num [DVec3.dot, sphereFront, rayZ, HitRecord.mk.injEq, DVec3.eq_iff]

/-- The two roots of `unitSphereO` along `rayX` are `-1` and `1`. -/
theorem unitSphereO_root_vals :
    unitSphereO.root1 rayX = -1 ∧ unitSphereO.root2 rayX = 1 := by
  have hd : unitSphereO.discriminant rayX = 1 := by
    norm_num [Sphere.discriminant, Sphere.half_b, Sphere.c, Sphere.a, Sphere.oc,
      DVec3.dot, DVec3.length_squared, unitSphereO, rayX]
  have hs : unitSphereO.sqrtd rayX = 1 := by rw [Sphere.sqrtd, hd, Real.sqrt_one]
  have ha : unitSphereO.a rayX = 1 := by
    norm_num [Sphere.a, DVec3.length_squared, DVec3.dot, rayX]
  have hb : unitSphereO.half_b rayX = 0 := by
    norm_num [Sphere.half_b, Sphere.oc, DVec3.dot, unitSphereO, rayX]
  rw [Sphere.root1, Sphere.root2, hs, ha, hb]
  norm_num

/-- Evaluation: `unitSphereO` hit by `rayX` (origin inside the sphere) over
`[0, 10]`: the nearer root `-1` is out of range, the farther root `1` is in
range; the call succeeds but records the shadowed outer root `-1`. -/
theorem unitSphereO_hit_eval (rc : HitRecord) :
    unitSphereO.hit rayX 0 (.finite 10) rc
      = (true, ⟨⟨-1, 0, 0⟩, ⟨-1, 0, 0⟩, -1, true⟩) := by
  rw [Sphere.hit_eval unitSphereO rayX 0 (.finite 10) rc 1 1 1 0
    (by norm_num [Sphere.discriminant, Sphere.half_b, Sphere.c, Sphere.a, Sphere.oc,
      DVec3.dot, DVec3.length_squared, unitSphereO, rayX])
    Real.sqrt_one
    (by norm_num [Sphere.a, DVec3.length_squared, DVec3.dot, rayX])
    (by norm_num [Sphere.half_b, Sphere.oc, DVec3.dot, unitSphereO, rayX])]
  norm_num [FBound.ltReal]
  simp only [Sphere.record, HitRecord.set_face_normal, Ray.at]
  norm_num [DVec3.dot, unitSphereO, rayX, HitRecord.mk.injEq, DVec3.eq_iff]

/-- Evaluation: `unitSphereO` hit by `rayX` over `[0, 1/2]`: both roots out of
range, so the call fails and leaves the record untouched. -/
theorem unitSphereO_hit_eval_half (rc : HitRecord) :
    unitSphereO.hit rayX 0 (.finite (1 / 2)) rc = (false, rc) := by
  rw [Sphere.hit_eval unitSphereO rayX 0 (.finite (1 / 2)) rc 1 1 1 0
    (by norm_num [Sphere.discriminant, Sphere.half_b, Sphere.c, Sphere.a, Sphere.oc,
      DVec3.dot, DVec3.length_squared, unitSphereO, rayX])
    Real.sqrt_one
    (by norm_num [Sphere.a, DVec3.length_squared, DVec3.dot, rayX])
    (by norm_num [Sphere.half_b, Sphere.oc, DVec3.dot, unitSphereO, rayX])]
  norm_num [FBound.ltReal]

/-- Evaluation: `sphereB` hit by `rayX` over `[0, 10]` succeeds normally with
the in-range nearer root `t = 1/2`. -/
theorem sphereB_hit_eval (rc : HitRecord) :
    sphereB.hit rayX 0 (.finite 10) rc
      = (true, ⟨⟨1 / 2, 0, 0⟩, ⟨-1, 0, 0⟩, 1 / 2, true⟩) := by
  rw [Sphere.hit_eval sphereB rayX 0 (.finite 10) rc 1 1 1 (-3 / 2)
    (by norm_num [Sphere.discriminant, Sphere.half_b, Sphere.c, Sphere.a, Sphere.oc,
      DVec3.dot, DVec3.length_squared, sphereB, rayX])
    Real.sqrt_one
    (by norm_num [Sphere.a, DVec3.length_squared, DVec3.dot, rayX])
    (by norm_num [Sphere.half_b, Sphere.oc, DVec3.dot, sphereB, rayX])]
  simp only [Sphere.record, HitRecord.set_face_normal, Ray.at]
  norm_num [FBound.ltReal, DVec3.dot, sphereB, rayX, HitRecord.mk.injEq, DVec3.eq_iff]

/-- Evaluation: `sphereB` hit by `rayX` over `[0, -1]` (the empty interval the
scene loop produces after recording the bogus root `-1`) fails. -/
theorem sphereB_hit_eval_neg (rc : HitRecord) :
    sphereB.hit rayX 0 (.finite (-1)) rc = (false, rc) := by
  rw [Sphere.hit_eval sphereB rayX 0 (.finite (-1)) rc 1 1 1 (-3 / 2)
    (by norm_num [Sphere.discriminant, Sphere.half_b, Sphere.c, Sphere.a, Sphere.oc,
      DVec3.dot, DVec3.length_squared, sphereB, rayX])
    Real.sqrt_one
    (by norm_num [Sphere.a, DVec3.length_squared, DVec3.dot, rayX])
    (by norm_num [Sphere.half_b, Sphere.oc, DVec3.dot, sphereB, rayX])]
  norm_num [FBound.ltReal]

/-- Evaluation of the scene `[unitSphereO, sphereB]` (bugged hit first): the
bogus recorded root `-1` shrinks `closest_so_far` to an empty interval, so
`sphereB`'s genuine hit at `1/2` is never recorded. -/
theorem worldAB_hit_eval :
    (⟨[unitSphereO, sphereB]⟩ : HittableList).hit rayX 0 (.finite 10) someRecord
      = (true, ⟨⟨-1, 0, 0⟩, ⟨-1, 0, 0⟩, -1, true⟩) := by
  rw [HittableList.hit]
  simp [hitLoop, unitSphereO_hit_eval, sphereB_hit_eval_neg]

/-- Evaluation of the scene `[sphereB, unitSphereO]`: `sphereB` records its
genuine hit at `1/2`, and `unitSphereO` then fails against `[0, 1/2]`. -/
theorem worldBA_hit_eval :
    (⟨[sphereB, unitSphereO]⟩ : HittableList).hit rayX 0 (.finite 10) someRecord
      = (true, ⟨⟨1 / 2, 0, 0⟩, ⟨-1, 0, 0⟩, 1 / 2, true⟩) := by
  rw [HittableList.hit]
  simp [hitLoop, sphereB_hit_eval, unitSphereO_hit_eval_half, -one_div]

/-! ### Claim theorems C1–C3 -/

/-- C1: the spec requires that when the nearer quadratic root lies outside
`[t_min, t_max]` but the farther root lies inside, `Sphere.hit` returns true
with the farther root recorded.  On the code, at sphere `unitSphereO` and ray
`rayX` over `[0, 10]`, the roots are `-1` (outside) and `1` (inside); the call
does return true, but — because the fallback `let root` only shadows inside
the `if` block — it records `t = -1`, the rejected nearer root, not `1`. -/
theorem sphere_hit_records_rejected_near_root :
    unitSphereO.root1 rayX = -1 ∧ unitSphereO.root2 rayX = 1
    ∧ (unitSphereO.hit rayX 0 (.finite 10) someRecord).1 = true
    ∧ (unitSphereO.hit rayX 0 (.finite 10) someRecord).2.t = -1 := by
  refine ⟨unitSphereO_root_vals.1, unitSphereO_root_vals.2, ?_, ?_⟩ <;>
    rw [unitSphereO_hit_eval]

/-- C2: the claimed contract says that on a true return the recorded `t`
satisfies `t_min ≤ t ≤ t_max`.  On the code, `unitSphereO.hit` along `rayX`
over `[0, 10]` returns true with recorded `t = -1 < t_min`. -/
theorem sphere_hit_true_t_out_of_range :
    (unitSphereO.hit rayX 0 (.finite 10) emptyRecord).1 = true
    ∧ (unitSphereO.hit rayX 0 (.finite 10) emptyRecord).2.t < 0 := by
  rw [unitSphereO_hit_eval]
  norm_num

/-- C3: the claim says permuting the scene's primitive list never changes the
returned boolean or record.  On the code, the scene `[unitSphereO, sphereB]`
returns `t = -1` while its permutation `[sphereB, unitSphereO]` returns
`t = 1/2` for the same ray `rayX` over `[0, 10]`. -/
theorem scene_hit_order_dependence :
    ((⟨[unitSphereO, sphereB]⟩ : HittableList).hit rayX 0 (.finite 10) someRecord).1 = true
    ∧ ((⟨[sphereB, unitSphereO]⟩ : HittableList).hit rayX 0 (.finite 10) someRecord).1 = true
    ∧ ((⟨[unitSphereO, sphereB]⟩ : HittableList).hit rayX 0 (.finite 10) someRecord).2.t
      = -1
    ∧ ((⟨[sphereB, unitSphereO]⟩ : HittableList).hit rayX 0 (.finite 10) someRecord).2.t
      = 1 / 2 := by
  rw [worldAB_hit_eval, worldBA_hit_eval]
  norm_num

/-! ### The scene loop: frame condition and record provenance -/

/-- If the scene loop ends with a false flag, the flag was false on entry and
the output record is returned unchanged. -/
theorem hitLoop_false (ray : Ray) (t_min : ℝ) (objs : List Sphere) (cl : FBound)
    (b : Bool) (tmp out : HitRecord)
    (h : (hitLoop ray t_min objs cl b tmp out).1 = false) :
    b = false ∧ (hitLoop ray t_min objs cl b tmp out).2 = out := by
  induction objs generalizing cl b tmp out with
  | nil => exact ⟨h, rfl⟩
  | cons s rest ih =>
    simp only [hitLoop] at h ⊢
    split_ifs at h ⊢ with hres
    · obtain ⟨hb, -⟩ := ih _ _ _ _ h
      cases hb
    · exact ih _ _ _ _ h

/-- Any property `Φ` holding of every record a successful `Sphere.hit` can
produce (and of the incoming record when the flag is already true) holds of the
scene loop's output record whenever the loop reports a hit. -/
theorem hitLoop_true_record (Φ : HitRecord → Prop) (ray : Ray) (t_min : ℝ)
    (objs : List Sphere) (cl : FBound) (b : Bool) (tmp out : HitRecord)
    (hb : b = true → Φ out)
    (hs : ∀ s ∈ objs, ∀ cl' : FBound, ∀ tmp' : HitRecord,
      (s.hit ray t_min cl' tmp').1 = true → Φ (s.hit ray t_min cl' tmp').2)
    (h : (hitLoop ray t_min objs cl b tmp out).1 = true) :
    Φ (hitLoop ray t_min objs cl b tmp out).2 := by
  induction objs generalizing cl b tmp out with
  | nil => exact hb h
  | cons s rest ih =>
    simp only [hitLoop] at h ⊢
    split_ifs at h ⊢ with hres
    · exact ih _ _ _ _ (fun _ => hs s (List.mem_cons_self s rest) _ _ hres)
        (fun s' hmem => hs s' (List.mem_cons_of_mem s hmem)) h
    · exact ih _ _ _ _ hb (fun s' hmem => hs s' (List.mem_cons_of_mem s hmem)) h

/-- The record any successful sphere hit produces has a normal that opposes
the ray direction. -/
theorem Sphere.record_dot_nonpos (s : Sphere) (ray : Ray) (root : ℝ) (rc : HitRecord) :
    ray.dir.dot (s.record ray root rc).normal ≤ 0 :=
  HitRecord.set_face_normal_dot_nonpos _ ray _

/-! ### Claim theorems C4 and C7 -/

/-- C4: front-face invariant.  For every successful `Sphere.hit` the returned
record has `front_face = (dot(ray.dir, outward_normal) < 0)` with
`outward_normal = (p - center)/radius`, the stored normal is `outward_normal`
when front facing and its negation otherwise, and in either case
`dot(ray.dir, normal) ≤ 0`; for every successful `HittableList.hit` the
returned normal likewise satisfies `dot(ray.dir, normal) ≤ 0`. -/
theorem hit_front_face_invariant (ray : Ray) (t_min : ℝ) (t_max : FBound)
    (rc : HitRecord) :
    (∀ s : Sphere, (s.hit ray t_min t_max rc).1 = true →
      ((s.hit ray t_min t_max rc).2.front_face
          = decide (ray.dir.dot
              (((s.hit ray t_min t_max rc).2.p - s.center).divScalar s.radius) < 0)
        ∧ (s.hit ray t_min t_max rc).2.normal
          = (if ray.dir.dot
                (((s.hit ray t_min t_max rc).2.p - s.center).divScalar s.radius) < 0
             then ((s.hit ray t_min t_max rc).2.p - s.center).divScalar s.radius
             else -(((s.hit ray t_min t_max rc).2.p - s.center).divScalar s.radius))
        ∧ ray.dir.dot (s.hit ray t_min t_max rc).2.normal ≤ 0))
    ∧ (∀ w : HittableList, (w.hit ray t_min t_max rc).1 = true →
        ∃ s ∈ w.objects,
          ((w.hit ray t_min t_max rc).2.front_face
              = decide (ray.dir.dot
                  (((w.hit ray t_min t_max rc).2.p - s.center).divScalar s.radius) < 0)
           ∧ (w.hit ray t_min t_max rc).2.normal
              = (if ray.dir.dot
                    (((w.hit ray t_min t_max rc).2.p - s.center).divScalar s.radius) < 0
                 then ((w.hit ray t_min t_max rc).2.p - s.center).divScalar s.radius
                 else -(((w.hit ray t_min t_max rc).2.p - s.center).divScalar s.radius))
           ∧ ray.dir.dot (w.hit ray t_min t_max rc).2.normal ≤ 0)) := by
  constructor
  · intro s h
    rw [Sphere.hit_true_snd s ray t_min t_max rc h, Sphere.record_p]
    exact ⟨Sphere.record_front_face s ray (s.root1 ray) rc,
      Sphere.record_normal s ray (s.root1 ray) rc,
      Sphere.record_dot_nonpos s ray (s.root1 ray) rc⟩
  · intro w h
    exact hitLoop_true_record (fun r => ∃ s ∈ w.objects,
        (r.front_face = decide (ray.dir.dot ((r.p - s.center).divScalar s.radius) < 0)
         ∧ r.normal = (if ray.dir.dot ((r.p - s.center).divScalar s.radius) < 0
              then (r.p - s.center).divScalar s.radius
              else -((r.p - s.center).divScalar s.radius))
         ∧ ray.dir.dot r.normal ≤ 0)) ray t_min
      w.objects t_max false emptyRecord rc (fun hfalse => by cases hfalse)
      (fun s hmem cl' tmp' htrue => by
        rw [Sphere.hit_true_snd s ray t_min cl' tmp' htrue]
        dsimp only
        rw [Sphere.record_p]
        exact ⟨s, hmem, Sphere.record_front_face s ray (s.root1 ray) tmp',
          Sphere.record_normal s ray (s.root1 ray) tmp',
          Sphere.record_dot_nonpos s ray (s.root1 ray) tmp'⟩) h

/-- Witness for C4 at `sphereFront`, `rayZ`, `[0, 10]`. -/
theorem hit_front_face_invariant_witness :
    rayZ.dir.dot (sphereFront.hit rayZ 0 (.finite 10) emptyRecord).2.normal ≤ 0
    ∧ ∃ s ∈ (⟨[sphereFront]⟩ : HittableList).objects,
        (((⟨[sphereFront]⟩ : HittableList).hit rayZ 0 (.finite 10) emptyRecord).2.front_face
            = decide (rayZ.dir.dot
                ((((⟨[sphereFront]⟩ : HittableList).hit rayZ 0 (.finite 10)
                    emptyRecord).2.p - s.center).divScalar s.radius) < 0)
         ∧ ((⟨[sphereFront]⟩ : HittableList).hit rayZ 0 (.finite 10) emptyRecord).2.normal
            = (if rayZ.dir.dot
                  ((((⟨[sphereFront]⟩ : HittableList).hit rayZ 0 (.finite 10)
                      emptyRecord).2.p - s.center).divScalar s.radius) < 0
               then (((⟨[sphereFront]⟩ : HittableList).hit rayZ 0 (.finite 10)
                      emptyRecord).2.p - s.center).divScalar s.radius
               else -((((⟨[sphereFront]⟩ : HittableList).hit rayZ 0 (.finite 10)
                      emptyRecord).2.p - s.center).divScalar s.radius))
         ∧ rayZ.dir.dot
             ((⟨[sphereFront]⟩ : HittableList).hit rayZ 0 (.finite 10) emptyRecord).2.normal
           ≤ 0) :=
  ⟨((hit_front_face_invariant rayZ 0 (.finite 10) emptyRecord).1 sphereFront
      (by rw [sphereFront_hit_eval])).2.2,
   (hit_front_face_invariant rayZ 0 (.finite 10) emptyRecord).2 ⟨[sphereFront]⟩
      (by simp [HittableList.hit, hitLoop, sphereFront_hit_eval])⟩

/-- Evaluation: `sphereFront` is missed entirely by the upward ray `rayY`
(negative discriminant), for any bound and any prior record. -/
theorem sphereFront_miss_eval (t_max : FBound) (rc : HitRecord) :
    sphereFront.hit rayY 0 t_max rc = (false, rc) := by
  have hd : sphereFront.discriminant rayY = -3 := by
    norm_num [Sphere.discriminant, Sphere.half_b, Sphere.c, Sphere.a, Sphere.oc,
      DVec3.dot, DVec3.length_squared, sphereFront, rayY]
  rw [Sphere.hit_eq, hd, if_pos (by norm_num : (-3 : ℝ) < 0)]

/-- C7: frame condition on miss.  Whenever `Sphere.hit` or `HittableList.hit`
returns false, the output record parameter is returned exactly as it was
passed in (all four fields unchanged). -/
theorem hit_false_leaves_record (ray : Ray) (t_min : ℝ) (t_max : FBound)
    (rc : HitRecord) :
    (∀ s : Sphere, (s.hit ray t_min t_max rc).1 = false →
      (s.hit ray t_min t_max rc).2 = rc)
    ∧ (∀ w : HittableList, (w.hit ray t_min t_max rc).1 = false →
      (w.hit ray t_min t_max rc).2 = rc) := by
  refine ⟨fun s h => Sphere.hit_false_frame s ray t_min t_max rc h, fun w h => ?_⟩
  exact (hitLoop_false ray t_min w.objects t_max false emptyRecord rc h).2

/-- Witness for C7 at `sphereFront`, the missing ray `rayY`, and the
pre-populated record `someRecord`. -/
theorem hit_false_leaves_record_witness :
    (sphereFront.hit rayY 0 (.finite 10) someRecord).2 = someRecord
    ∧ ((⟨[sphereFront]⟩ : HittableList).hit rayY 0 (.finite 10) someRecord).2
      = someRecord :=
  ⟨(hit_false_leaves_record rayY 0 (.finite 10) someRecord).1 sphereFront
      (by rw [sphereFront_miss_eval]),
   (hit_false_leaves_record rayY 0 (.finite 10) someRecord).2 ⟨[sphereFront]⟩
      (by simp [HittableList.hit, hitLoop, sphereFront_miss_eval])⟩

/-- Witness for C5 at `sphereFront`, `rayZ`, `[0, 10]`. -/
theorem sphere_hit_point_on_sphere_witness :
    ((sphereFront.hit rayZ 0 (.finite 10) emptyRecord).2.p - sphereFront.center).length
      = sphereFront.radius
    ∧ (sphereFront.hit rayZ 0 (.finite 10) emptyRecord).2.normal.length = 1 :=
  sphere_hit_point_on_sphere sphereFront rayZ 0 (.finite 10) emptyRecord
    (by norm_num [sphereFront])
    (by norm_num [rayZ, DVec3.eq_iff])
    (by rw [sphereFront_hit_eval])

/-! ### Bounds on unit vectors, toward C10 -/

/-- The components of a vector of unit length lie in `[-1, 1]`. -/
theorem DVec3.unit_component_bounds (n : DVec3) (h : n.length = 1) :
    (-1 ≤ n.x ∧ n.x ≤ 1) ∧ (-1 ≤ n.y ∧ n.y ≤ 1) ∧ (-1 ≤ n.z ∧ n.z ≤ 1) := by
  have hls : n.length_squared = 1 := by
    have hsq := DVec3.length_sq n
    rw [h] at hsq
    linarith [hsq]
  simp only [DVec3.length_squared, DVec3.dot] at hls
  refine ⟨⟨?_, ?_⟩, ⟨?_, ?_⟩, ⟨?_, ?_⟩⟩ <;>
    nlinarith [sq_nonneg n.x, sq_nonneg n.y, sq_nonneg n.z]

/-- The `y` component of the normalization of a nonzero vector lies in
`[-1, 1]`. -/
theorem DVec3.normalize_y_bounds (v : DVec3) (hv : v ≠ ⟨0, 0, 0⟩) :
    -1 ≤ v.normalize.y ∧ v.normalize.y ≤ 1 := by
  have hne : v.length_squared ≠ 0 := fun h0 =>
    hv ((DVec3.length_squared_eq_zero_iff v).mp h0)
  have hls : 0 < v.length_squared :=
    lt_of_le_of_ne (DVec3.length_squared_nonneg v) (Ne.symm hne)
  have hl : 0 < v.length := Real.sqrt_pos.mpr hls
  have hy2 : v.y ^ 2 ≤ v.length ^ 2 := by
    rw [DVec3.length_sq]
    simp only [DVec3.length_squared, DVec3.dot]
    nlinarith [sq_nonneg v.x, sq_nonneg v.z]
  have hupper : v.y ≤ v.length := by nlinarith
  have hlower : -v.length ≤ v.y := by nlinarith
  rw [DVec3.normalize, DVec3.divScalar_y]
  constructor
  · rw [le_div_iff₀ hl]
    linarith
  · rw [div_le_one hl]
    exact hupper

/-- C10: for every world of positive-radius spheres and every ray with nonzero
direction, each component of `ray_color` lies in `[0, 1]` — on the hit branch
because the recorded normal is unit length, on the background branch because
the interpolation parameter lies in `[0, 1]`. -/
theorem ray_color_components_in_range (w : HittableList)
    (hw : ∀ s ∈ w.objects, 0 < s.radius) (ray : Ray)
    (hdir : ray.dir ≠ ⟨0, 0, 0⟩) :
    (0 ≤ (ray_color ray w).x ∧ (ray_color ray w).x ≤ 1)
    ∧ (0 ≤ (ray_color ray w).y ∧ (ray_color ray w).y ≤ 1)
    ∧ (0 ≤ (ray_color ray w).z ∧ (ray_color ray w).z ≤ 1) := by
  have ha : ray.dir.length_squared ≠ 0 := fun h0 =>
    hdir ((DVec3.length_squared_eq_zero_iff _).mp h0)
  simp only [ray_color]
  by_cases hres : (w.hit ray 0 .infinity emptyRecord).1 = true
  · have hnorm : (w.hit ray 0 .infinity emptyRecord).2.normal.length = 1 :=
      hitLoop_true_record (fun r => r.normal.length = 1) ray 0 w.objects .infinity
        false emptyRecord emptyRecord (fun hfalse => by cases hfalse)
        (fun s hmem cl' tmp' htrue =>
          Sphere.hit_true_normal_length s ray 0 cl' tmp' (hw s hmem)
            (by rw [Sphere.a]; exact ha) htrue) hres
    obtain ⟨hx, hy, hz⟩ := DVec3.unit_component_bounds _ hnorm
    rw [if_pos hres]
    simp only [DVec3.smul_x, DVec3.smul_y, DVec3.smul_z]
    norm_num
    constructor
    · constructor <;> linarith [hx.1, hx.2]
    constructor
    · constructor <;> linarith [hy.1, hy.2]
    · constructor <;> linarith [hz.1, hz.2]
  · have hbounds := DVec3.normalize_y_bounds ray.dir hdir
    rw [if_neg hres]
    simp only [DVec3.add_x, DVec3.add_y, DVec3.add_z, DVec3.smul_x, DVec3.smul_y,
      DVec3.smul_z]
    refine ⟨⟨?_, ?_⟩, ⟨?_, ?_⟩, ⟨?_, ?_⟩⟩ <;> nlinarith [hbounds.1, hbounds.2]

/-- Witness for C10 at the program's own world and the `-z` axis ray. -/
theorem ray_color_components_in_range_witness :
    (0 ≤ (ray_color rayZ world).x ∧ (ray_color rayZ world).x ≤ 1)
    ∧ (0 ≤ (ray_color rayZ world).y ∧ (ray_color rayZ world).y ≤ 1)
    ∧ (0 ≤ (ray_color rayZ world).z ∧ (ray_color rayZ world).z ≤ 1) :=
  ray_color_components_in_range world
    (by
      intro s hs
      simp only [world, List.mem_cons, List.not_mem_nil, or_false] at hs
      rcases hs with h | h <;> rw [h] <;> norm_num)
    rayZ (by norm_num [rayZ, DVec3.eq_iff])

/-! ### Evaluations for the program's own world (scenario C6) -/

/-- Evaluation: the near sphere of `world`, hit by `rayZ` over `[0, ∞)`,
succeeds through the in-range nearer root `t = 1/2`. -/
theorem worldSphere1_hit_eval (rc : HitRecord) :
    (⟨⟨0, 0, -1⟩, 0.5⟩ : Sphere).hit rayZ 0 .infinity rc
      = (true, ⟨⟨0, 0, -1 / 2⟩, ⟨0, 0, 1⟩, 1 / 2, true⟩) := by
  rw [Sphere.hit_eval (⟨⟨0, 0, -1⟩, 0.5⟩ : Sphere) rayZ 0 .infinity rc (1 / 4) (1 / 2)
    1 (-1)
    (by norm_num [Sphere.discriminant, Sphere.half_b, Sphere.c, Sphere.a, Sphere.oc,
      DVec3.dot, DVec3.length_squared, rayZ])
    (sqrt_of_sq (by norm_num) (by norm_num))
    (by norm_num [Sphere.a, DVec3.length_squared, DVec3.dot, rayZ])
    (by norm_num [Sphere.half_b, Sphere.oc, DVec3.dot, rayZ])]
  norm_num [FBound.ltReal]
  simp only [Sphere.record, HitRecord.set_face_normal, Ray.at]
  norm_num [DVec3.dot, rayZ, HitRecord.mk.injEq, DVec3.eq_iff]

/-- Evaluation: the ground sphere of `world` is missed by `rayZ` (negative
discriminant), for any bound and any prior record. -/
theorem worldSphere2_hit_eval (t_max : FBound) (rc : HitRecord) :
    (⟨⟨0, -100.5, -1⟩, 100.0⟩ : Sphere).hit rayZ 0 t_max rc = (false, rc) := by
  have hd : (⟨⟨0, -100.5, -1⟩, 100.0⟩ : Sphere).discriminant rayZ = -401 / 4 := by
    norm_num [Sphere.discriminant, Sphere.half_b, Sphere.c, Sphere.a, Sphere.oc,
      DVec3.dot, DVec3.length_squared, rayZ]
  rw [Sphere.hit_eq, hd, if_pos (by norm_num : (-401 / 4 : ℝ) < 0)]

/-- C6: end-to-end scenario 2.  The `-z` axis ray against the program's
two-sphere world hits the near sphere at `t = 1/2` with front-facing normal
`(0,0,1)`, and `ray_color` returns `0.5*((0+1),(0+1),(1+1)) = (1/2, 1/2, 1)`. -/
theorem scenario2_center_ray :
    (world.hit rayZ 0 .infinity emptyRecord).1 = true
    ∧ (world.hit rayZ 0 .infinity emptyRecord).2.t = 1 / 2
    ∧ (world.hit rayZ 0 .infinity emptyRecord).2.front_face = true
    ∧ (world.hit rayZ 0 .infinity emptyRecord).2.normal = ⟨0, 0, 1⟩
    ∧ ray_color rayZ world = ⟨1 / 2, 1 / 2, 1⟩ := by
  have hw : world.hit rayZ 0 .infinity emptyRecord
      = (true, ⟨⟨0, 0, -1 / 2⟩, ⟨0, 0, 1⟩, 1 / 2, true⟩) := by
    rw [HittableList.hit]
    simp [world, hitLoop, worldSphere1_hit_eval, worldSphere2_hit_eval, -one_div]
  refine ⟨by rw [hw], by rw [hw], by rw [hw], by rw [hw], ?_⟩
  simp only [ray_color, hw]
  norm_num [DVec3.eq_iff]

/-! ### Claim theorems C8 and C9 -/

/-- C8: channel quantization.  For channels in `[0, 1]`, `write_color` emits
exactly `floor(255.999 * channel)` per channel, each emitted value is an
integer in `[0, 255]`, and channel `1.0` yields `255`, not `256`. -/
theorem write_color_quantization (p : DVec3) (hx : 0 ≤ p.x ∧ p.x ≤ 1)
    (hy : 0 ≤ p.y ∧ p.y ≤ 1) (hz : 0 ≤ p.z ∧ p.z ≤ 1) :
    write_color p
      = (⌊(255.999 : ℝ) * p.x⌋, ⌊(255.999 : ℝ) * p.y⌋, ⌊(255.999 : ℝ) * p.z⌋)
    ∧ (0 ≤ ⌊(255.999 : ℝ) * p.x⌋ ∧ ⌊(255.999 : ℝ) * p.x⌋ ≤ 255)
    ∧ (0 ≤ ⌊(255.999 : ℝ) * p.y⌋ ∧ ⌊(255.999 : ℝ) * p.y⌋ ≤ 255)
    ∧ (0 ≤ ⌊(255.999 : ℝ) * p.z⌋ ∧ ⌊(255.999 : ℝ) * p.z⌋ ≤ 255)
    ∧ write_color ⟨1, 1, 1⟩ = (255, 255, 255) := by
  have bound : ∀ t : ℝ, 0 ≤ t → t ≤ 1 →
      0 ≤ ⌊(255.999 : ℝ) * t⌋ ∧ ⌊(255.999 : ℝ) * t⌋ ≤ 255 := by
    intro t h0 h1
    constructor
    · exact Int.floor_nonneg.mpr (by nlinarith)
    · have hlt : ⌊(255.999 : ℝ) * t⌋ < 256 := Int.floor_lt.mpr (by push_cast; nlinarith)
      linarith
  have h255 : ⌊(255.999 : ℝ)⌋ = 255 := by
    rw [Int.floor_eq_iff]
    norm_num
  refine ⟨rfl, bound _ hx.1 hx.2, bound _ hy.1 hy.2, bound _ hz.1 hz.2, ?_⟩
  simp [write_color, h255]

/-- Witness for C8 at the color `(1, 1/2, 0)`. -/
theorem write_color_quantization_witness :
    write_color ⟨1, 1 / 2, 0⟩
      = (⌊(255.999 : ℝ) * 1⌋, ⌊(255.999 : ℝ) * (1 / 2)⌋, ⌊(255.999 : ℝ) * 0⌋)
    ∧ (0 ≤ ⌊(255.999 : ℝ) * 1⌋ ∧ ⌊(255.999 : ℝ) * 1⌋ ≤ 255)
    ∧ (0 ≤ ⌊(255.999 : ℝ) * (1 / 2)⌋ ∧ ⌊(255.999 : ℝ) * (1 / 2)⌋ ≤ 255)
    ∧ (0 ≤ ⌊(255.999 : ℝ) * 0⌋ ∧ ⌊(255.999 : ℝ) * 0⌋ ≤ 255)
    ∧ write_color ⟨1, 1, 1⟩ = (255, 255, 255) :=
  write_color_quantization ⟨1, 1 / 2, 0⟩ (by norm_num) (by norm_num) (by norm_num)

/-- C9: with `image_width = 400` and `aspect_ratio = 16/9`, the derived image
height is `225` (and agrees with the spec's `max(1, round(width/aspect))`
formula), and the first three lines of standard output are exactly `P3`,
`400 225`, `255`, ahead of any pixel line. -/
theorem header_and_derived_height :
    image_height = 225
    ∧ max 1 (round ((image_width : ℝ) / aspect_ratio)) = 225
    ∧ mainStdout.take 3 = ["P3", "400 225", "255"] := by
  have hq : (image_width : ℝ) / aspect_ratio = 225 := by
    rw [image_width, aspect_ratio]
    norm_num
  have himg : image_height = 225 := by
    rw [image_height, as_i32, hq]
    norm_num
  have hround : max 1 (round ((image_width : ℝ) / aspect_ratio)) = 225 := by
    rw [hq]
    norm_num
  refine ⟨himg, hround, ?_⟩
  rw [mainStdout, header, himg, image_width]
  rfl

end Raycaster
